import Mathlib

/-!
Verification of the satellite visibility pipeline
(implementations/python-sgp4/src/calculator.py and
implementations/python-skyfield/src/calculator.py).

Modelling conventions:
* Timestamps are UTC instants with second precision (the code parses ISO-8601
  times with a Z suffix and formats output with second precision); we model
  them as integers (seconds since an arbitrary epoch).  Differences of
  `datetime` values in the code (`total_seconds`) become integer subtraction.
* Python floats are modelled by exact rationals (for the window segmenter and
  the GMST polynomial, where the claims are about formulas and control flow)
  or by real numbers (for the geometric pipeline, which uses trigonometry).
* Python's builtin `round(x, n)` rounds to `n` decimal digits with ties going
  to the nearest even last digit; `pyRound` below models exactly that on
  rationals.
* The external collaborators (the SGP4 propagator, the `jday` date conversion
  and the Skyfield library objects) are modelled as function parameters, as
  the specification directs (they are opaque collaborators).
-/

/-! ## Data model for the window segmenter

Both calculator.py files contain a textually identical
`_find_visibility_windows(self, positions, times, min_elevation)`; the model
below covers both.  A `Sample` is one element of the `positions` list built by
`_calculate_positions` (keys: time, elevation, azimuth, range, rangeRate,
altitude); a `Point` is the rounded record appended to `window_positions`; a
`Window` is one emitted visibility-window dictionary. -/

structure Sample where
  time : ℤ
  elevation : ℚ
  azimuth : ℚ
  range : ℚ
  rangeRate : ℚ
  altitude : ℚ
deriving Repr, DecidableEq

structure Point where
  time : ℤ
  azimuth : ℚ
  elevation : ℚ
  range : ℚ
  rangeRate : ℚ
  altitude : ℚ
deriving Repr, DecidableEq

structure Window where
  start : ℤ
  endTime : ℤ
  maxElevation : ℚ
  maxElevationTime : ℤ
  duration : ℚ
  points : List Point
deriving Repr, DecidableEq

/-- Round a rational to the nearest integer, ties to even: the tie-breaking
rule of Python 3's builtin `round`. -/
def rnte (q : ℚ) : ℤ :=
  if q - ⌊q⌋ < 1 / 2 then ⌊q⌋
  else if 1 / 2 < q - ⌊q⌋ then ⌊q⌋ + 1
  else if ⌊q⌋ % 2 = 0 then ⌊q⌋ else ⌊q⌋ + 1

/-- Model of Python's `round(q, n)` on an exactly-represented value: round to
`n` decimal digits, ties to even.  (CPython rounds the binary double
correctly in this sense; on values that are exact in binary — as all our
counterexample inputs are — this model is exact.) -/
def pyRound (q : ℚ) (n : ℕ) : ℚ := (rnte (q * 10 ^ n) : ℚ) / 10 ^ n

/-- Modelled from the spec: round-half-away-from-zero to the nearest integer,
the tie-breaking rule the specification's rounding contract (§8) demands. -/
def rhafz (q : ℚ) : ℤ := if 0 ≤ q then ⌊q + 1 / 2⌋ else -⌊-q + 1 / 2⌋

/-- Modelled from the spec: rounding to `n` decimal digits with ties going
away from zero (the spec's "standard round-half-away-from-zero"). -/
def specRound (q : ℚ) (n : ℕ) : ℚ := (rhafz (q * 10 ^ n) : ℚ) / 10 ^ n

/-- The rounded record appended to `window_positions` while a window is open
(calculator.py lines 288-295 / 150-157): azimuth, elevation, range and
altitude rounded to 2 decimals, rangeRate to 3. -/
def roundPoint (pos : Sample) : Point :=
  { time := pos.time
    azimuth := pyRound pos.azimuth 2
    elevation := pyRound pos.elevation 2
    range := pyRound pos.range 2
    rangeRate := pyRound pos.rangeRate 3
    altitude := pyRound pos.altitude 2 }

/-- The mutable locals of the `_find_visibility_windows` loop.  `prev_time`
carries the timestamp of the previously processed sample: the code reads
`positions[i-1]['time']` when closing a window at index `i`, and
`positions[-1]['time']` when closing after the loop, and both equal the
previous sample's time at those program points. -/
structure SegState where
  in_window : Bool
  window_start : ℤ
  window_positions : List Point
  window_max_elevation : ℚ
  window_max_elevation_time : ℤ
  prev_time : ℤ
  windows : List Window
deriving Repr, DecidableEq

/-- The window dictionary built when a window is closed with end time
`window_end` (calculator.py lines 300-310 and 315-326): duration is
`round((end - start).total_seconds(), 0)` and maxElevation is
`round(window_max_elevation, 2)`. -/
def closeWindow (st : SegState) (window_end : ℤ) : Window :=
  { start := st.window_start
    endTime := window_end
    maxElevation := pyRound st.window_max_elevation 2
    maxElevationTime := st.window_max_elevation_time
    duration := pyRound ((window_end - st.window_start : ℤ) : ℚ) 0
    points := st.window_positions }

/-- One iteration of the `for i, pos in enumerate(positions)` loop of
`_find_visibility_windows`. -/
def segStep (min_elevation : ℚ) (st : SegState) (pos : Sample) : SegState :=
  if min_elevation ≤ pos.elevation then
    let st1 := if st.in_window then st else
      { st with
        in_window := true
        window_start := pos.time
        window_positions := []
        window_max_elevation := pos.elevation
        window_max_elevation_time := pos.time }
    let st2 := if st1.window_max_elevation < pos.elevation then
      { st1 with
        window_max_elevation := pos.elevation
        window_max_elevation_time := pos.time }
      else st1
    { st2 with
      window_positions := st2.window_positions ++ [roundPoint pos]
      prev_time := pos.time }
  else if st.in_window then
    { st with
      windows := st.windows ++ [closeWindow st st.prev_time]
      in_window := false
      prev_time := pos.time }
  else
    { st with prev_time := pos.time }

/-- The loop locals of `_find_visibility_windows` just before its loop
(calculator.py lines 265-270). -/
def initState : SegState :=
  { in_window := false
    window_start := 0
    window_positions := []
    window_max_elevation := -90
    window_max_elevation_time := 0
    prev_time := 0
    windows := [] }

/-- The whole `for` loop of `_find_visibility_windows`. -/
def segFold (min_elevation : ℚ) (st : SegState) (positions : List Sample) : SegState :=
  positions.foldl (segStep min_elevation) st

/-- The trailing `if in_window and window_positions:` block of
`_find_visibility_windows`, which closes a window still open at the end of
the scan using the last sample's time. -/
def finalizeState (st : SegState) : List Window :=
  if st.in_window ∧ st.window_positions ≠ [] then
    st.windows ++ [closeWindow st st.prev_time]
  else st.windows

/-- `_find_visibility_windows(positions, times, min_elevation)` of both
calculator.py files.  The `times` argument is accepted and never read, just
as in the source. -/
def _find_visibility_windows (positions : List Sample) (times : List ℤ)
    (min_elevation : ℚ) : List Window :=
  finalizeState (segFold min_elevation initState positions)

/-! ## Specification-side vocabulary for the segmenter

These definitions name, in the spec's terms, what a correct window looks
like; they are compared against the code model above. -/

/-- Last element of `d :: l` (used to state that a window's end is the last
in-threshold sample's time). -/
def lastD (d : Sample) : List Sample → Sample
  | [] => d
  | a :: l => lastD a l

/-- The running-peak update of the loop: replace the current peak
(elevation, time) exactly when a strictly larger elevation appears, so a tie
keeps the earlier timestamp. -/
def peakStep (acc : ℚ × ℤ) (s : Sample) : ℚ × ℤ :=
  if acc.1 < s.elevation then (s.elevation, s.time) else acc

/-- Running peak over a list of samples, started from `acc`. -/
def peakAccum (acc : ℚ × ℤ) (l : List Sample) : ℚ × ℤ := l.foldl peakStep acc

/-- Maximum elevation over samples `l`, with base value `e`. -/
def runMax (e : ℚ) (l : List Sample) : ℚ := l.foldl (fun a s => max a s.elevation) e

/-- `FirstMax r m tm` says `m` is attained in `r` at time `tm` and every
earlier sample of `r` has strictly smaller elevation: `tm` is the timestamp
of the *first* sample attaining `m`. -/
def FirstMax (r : List Sample) (m : ℚ) (tm : ℤ) : Prop :=
  ∃ l₁ s l₂, r = l₁ ++ s :: l₂ ∧ s.elevation = m ∧ s.time = tm ∧
    ∀ s2 ∈ l₁, s2.elevation < m

/-- What the specification promises of an emitted window: it comes from a
nonempty run `s0 :: rest` of samples drawn from the input, all with
(unrounded) elevation at least `min_elevation`; its points are exactly the
rounded records of that run; start and end are the first and last sample
times of the run; duration is end minus start in whole seconds; maxElevation
is the run's maximum elevation rounded to 2 decimals; and maxElevationTime
is the time of the first sample attaining that maximum. -/
def GoodWindow (samples : List Sample) (min_elevation : ℚ) (w : Window) : Prop :=
  ∃ s0 rest,
    (∀ s ∈ s0 :: rest, s ∈ samples) ∧
    (∀ s ∈ s0 :: rest, min_elevation ≤ s.elevation) ∧
    w.points = (s0 :: rest).map roundPoint ∧
    w.start = s0.time ∧
    w.endTime = (lastD s0 rest).time ∧
    w.duration = ((w.endTime - w.start : ℤ) : ℚ) ∧
    w.maxElevation = pyRound (runMax s0.elevation rest) 2 ∧
    FirstMax (s0 :: rest) (runMax s0.elevation rest) w.maxElevationTime

/-- Loop invariant tying the accumulator of an open window to the run of
samples it was built from. -/
def OpenAcc (samples : List Sample) (min_elevation : ℚ) (st : SegState) : Prop :=
  ∃ s0 rest,
    (∀ s ∈ s0 :: rest, s ∈ samples) ∧
    (∀ s ∈ s0 :: rest, min_elevation ≤ s.elevation) ∧
    st.window_positions = (s0 :: rest).map roundPoint ∧
    st.window_start = s0.time ∧
    st.prev_time = (lastD s0 rest).time ∧
    (st.window_max_elevation, st.window_max_elevation_time) =
      peakAccum (s0.elevation, s0.time) rest

/-- Invariant of the segmenter loop: every emitted window is good, and while
a window is open its accumulator corresponds to the run scanned so far. -/
def SegInv (samples : List Sample) (min_elevation : ℚ) (st : SegState) : Prop :=
  (∀ w ∈ st.windows, GoodWindow samples min_elevation w) ∧
  (st.in_window = true → OpenAcc samples min_elevation st)

/-! ## Concrete inputs used by the claims -/

/-- Sample `i` minutes after 2024-01-01T00:00:00Z (Unix time 1704067200)
with elevation `e`; the remaining fields are immaterial to the scenario and
set to 0. -/
def minuteSample (i : ℤ) (e : ℚ) : Sample := ⟨1704067200 + 60 * i, e, 0, 0, 0, 0⟩

/-- The synthetic elevation profile [5, 12, 20, 15, 8, 3, 11, 9] of the
spec's concrete scenario, at 60-second steps from 2024-01-01T00:00:00Z. -/
def scenarioSamples : List Sample :=
  [minuteSample 0 5, minuteSample 1 12, minuteSample 2 20, minuteSample 3 15,
   minuteSample 4 8, minuteSample 5 3, minuteSample 6 11, minuteSample 7 9]

/-- A sample whose elevation 10.123 has more than 2 decimal digits. -/
def threeDigitSample : Sample := ⟨0, 10123/1000, 0, 0, 0, 0⟩

/-- A sample whose fields all carry the exactly-representable tie value
0.125 (a .005-style boundary at 2 decimal digits). -/
def tieSample : Sample := ⟨0, 125/1000, 125/1000, 125/1000, 125/1000, 125/1000⟩

/-! ## The time grid (`_generate_times`, identical in both files)

The Python method initializes `current = start` and keeps the loop variable
internal; the model recurses on `start` itself.  The loop terminates only
for a positive step, which the recursion takes as a hypothesis. -/

/-- `_generate_times(start, end, step_seconds)`: all times
`start, start + step, ...` up to and including the last one `≤ end`. -/
def _generate_times (start endT step_seconds : ℤ) (h : 0 < step_seconds) : List ℤ :=
  if hle : start ≤ endT then
    start :: _generate_times (start + step_seconds) endT step_seconds h
  else []
termination_by (endT + step_seconds - start).toNat
decreasing_by simp_wf; omega

/-! ## The sgp4-based sample generator (python-sgp4/src/calculator.py)

Scalars of the geometric pipeline are real numbers; sin, cos, sqrt and atan2
are the corresponding real functions.  The external SGP4 propagator
(`satellite.sgp4`) and the `jday` calendar conversion are opaque
collaborators and enter as parameters, per the spec's §2 and §9. -/

/-- A 3-vector of kilometers (the `np.array([x, y, z])` values). -/
structure Vec3 where
  x : ℝ
  y : ℝ
  z : ℝ

/-- Componentwise vector difference (`sat_pos_ecef - observer_ecef`). -/
def vsub (a b : Vec3) : Vec3 := ⟨a.x - b.x, a.y - b.y, a.z - b.z⟩

/-- `np.linalg.norm` of a 3-vector. -/
noncomputable def norm3 (v : Vec3) : ℝ := Real.sqrt (v.x ^ 2 + v.y ^ 2 + v.z ^ 2)

/-- One element of the `positions` list of `_calculate_positions` (real
scalars, pre-rounding). -/
structure Position where
  time : ℤ
  elevation : ℝ
  azimuth : ℝ
  range : ℝ
  rangeRate : ℝ
  altitude : ℝ

namespace sgp4

/-- `VisibilityCalculator.EARTH_RADIUS_KM` (WGS84 equatorial radius), shared
by `_geodetic_to_ecef` and the altitude computation. -/
noncomputable def EARTH_RADIUS_KM : ℝ := 6378.137

/-- `VisibilityCalculator.EARTH_FLATTENING` (WGS84 flattening). -/
noncomputable def EARTH_FLATTENING : ℝ := 1.0 / 298.257223563

/-- `math.radians`. -/
noncomputable def radians (d : ℝ) : ℝ := d * Real.pi / 180

/-- `math.degrees`. -/
noncomputable def degrees (r : ℝ) : ℝ := r * 180 / Real.pi

/-- `math.atan2(y, x)`: four-quadrant arctangent, with the CPython
convention `atan2(0, 0) = 0`. -/
noncomputable def atan2 (y x : ℝ) : ℝ :=
  if 0 < x then Real.arctan (y / x)
  else if x < 0 then
    (if 0 ≤ y then Real.arctan (y / x) + Real.pi else Real.arctan (y / x) - Real.pi)
  else if 0 < y then Real.pi / 2
  else if y < 0 then -(Real.pi / 2)
  else 0

/-- `_geodetic_to_ecef(lat_deg, lon_deg, alt_km)`. -/
noncomputable def _geodetic_to_ecef (lat_deg lon_deg alt_km : ℝ) : Vec3 :=
  let lat := radians lat_deg
  let lon := radians lon_deg
  let e_squared := 2 * EARTH_FLATTENING - EARTH_FLATTENING ^ 2
  let N := EARTH_RADIUS_KM / Real.sqrt (1 - e_squared * Real.sin lat ^ 2)
  { x := (N + alt_km) * Real.cos lat * Real.cos lon
    y := (N + alt_km) * Real.cos lat * Real.sin lon
    z := (N * (1 - e_squared) + alt_km) * Real.sin lat }

/-- The seconds-valued part of `_gmst(jd, fr)` (everything up to the final
conversion to radians), computed exactly on rationals: the IAU 1982
polynomial in Julian centuries `t`, plus the fractional-day term with the
code's literal coefficient 1.00273790935, reduced modulo 86400 (Python's
float `%` is a floored modulus for a positive divisor). -/
def gmstSeconds (jd fr : ℚ) : ℚ :=
  let t := (jd - 2451545.0 + fr) / 36525.0
  let gmst_0h := 24110.54841 + 8640184.812866 * t + 0.093104 * t * t
    - 6.2e-6 * t * t * t + 86400.0 * 1.00273790935 * fr
  gmst_0h - 86400.0 * ⌊gmst_0h / 86400.0⌋

/-- Modelled from the spec (§4.1 sentence quoted by the claim): the same
GMST seconds value but with the spec's literal fractional-day coefficient
1.0027379093. -/
def gmstSecondsSpec (jd fr : ℚ) : ℚ :=
  let T := (jd - 2451545.0 + fr) / 36525.0
  let g := 24110.54841 + 8640184.812866 * T + 0.093104 * T ^ 2
    - 6.2e-6 * T ^ 3 + 86400 * 1.0027379093 * fr
  g - 86400 * ⌊g / 86400⌋

/-- The spec's GMST-seconds formula amended to the code's fractional-day
coefficient 1.00273790935 (the only change the counterexample forces). -/
def gmstSecondsAmended (jd fr : ℚ) : ℚ :=
  let T := (jd - 2451545.0 + fr) / 36525.0
  let g := 24110.54841 + 8640184.812866 * T + 0.093104 * T ^ 2
    - 6.2e-6 * T ^ 3 + 86400 * 1.00273790935 * fr
  g - 86400 * ⌊g / 86400⌋

/-- `_gmst(jd, fr)`: GMST in radians. -/
noncomputable def _gmst (jd fr : ℚ) : ℝ :=
  (gmstSeconds jd fr : ℝ) * (2.0 * Real.pi / 86400.0)

/-- `_teme_to_ecef(teme_pos, jd, fr)`: rotation about the polar axis by the
sidereal angle. -/
noncomputable def _teme_to_ecef (teme_pos : Vec3) (jd fr : ℚ) : Vec3 :=
  let gmst := _gmst jd fr
  let cos_gmst := Real.cos gmst
  let sin_gmst := Real.sin gmst
  { x := cos_gmst * teme_pos.x + sin_gmst * teme_pos.y
    y := -sin_gmst * teme_pos.x + cos_gmst * teme_pos.y
    z := teme_pos.z }

/-- `_ecef_to_azel(range_vec, observer_lat_deg, observer_lon_deg)`. -/
noncomputable def _ecef_to_azel (range_vec : Vec3)
    (observer_lat_deg observer_lon_deg : ℝ) : ℝ × ℝ :=
  let lat := radians observer_lat_deg
  let lon := radians observer_lon_deg
  let sin_lat := Real.sin lat
  let cos_lat := Real.cos lat
  let sin_lon := Real.sin lon
  let cos_lon := Real.cos lon
  let south := sin_lat * cos_lon * range_vec.x + sin_lat * sin_lon * range_vec.y
    - cos_lat * range_vec.z
  let east := -sin_lon * range_vec.x + cos_lon * range_vec.y
  let zenith := cos_lat * cos_lon * range_vec.x + cos_lat * sin_lon * range_vec.y
    + sin_lat * range_vec.z
  let azimuth := atan2 east (-south)
  let azimuth_deg := degrees azimuth
  let azimuth_deg := if azimuth_deg < 0 then azimuth_deg + 360.0 else azimuth_deg
  let range_horizontal := Real.sqrt (south ^ 2 + east ^ 2)
  let elevation_deg := degrees (atan2 zenith range_horizontal)
  (azimuth_deg, elevation_deg)

/-- The external propagator capability: `satellite.sgp4(jd, fr)` returns an
error code and the TEME position and velocity vectors. -/
structure SatRec where
  sgp4 : ℚ → ℚ → ℤ × Vec3 × Vec3

/-- `_calculate_positions(satellite, observer_ecef, times, observer_lat,
observer_lon)`, with the external `jday` calendar conversion as a parameter
(it maps a second-precision UTC instant to a Julian day and day fraction).
The source iterates with an index and reads `times[i + 1]` for the range-rate
lookahead; the model matches on the tail of the list, which holds exactly
that next element. -/
noncomputable def _calculate_positions (satellite : SatRec) (jday : ℤ → ℚ × ℚ)
    (observer_ecef : Vec3) (times : List ℤ) (observer_lat observer_lon : ℝ) :
    List Position :=
  match times with
  | [] => []
  | dt :: rest =>
    let jdfr := jday dt
    let res := satellite.sgp4 jdfr.1 jdfr.2
    let error_code := res.1
    let sat_pos_teme := res.2.1
    if error_code ≠ 0 then
      _calculate_positions satellite jday observer_ecef rest observer_lat observer_lon
    else
      let sat_pos_ecef := _teme_to_ecef sat_pos_teme jdfr.1 jdfr.2
      let range_vec := vsub sat_pos_ecef observer_ecef
      let range_km := norm3 range_vec
      let azel := _ecef_to_azel range_vec observer_lat observer_lon
      let range_rate :=
        match rest with
        | [] => 0.0
        | dt_next :: _ =>
          let jdfr_next := jday dt_next
          let res_next := satellite.sgp4 jdfr_next.1 jdfr_next.2
          if res_next.1 = 0 then
            let sat_pos_next_ecef := _teme_to_ecef res_next.2.1 jdfr_next.1 jdfr_next.2
            let range_next := norm3 (vsub sat_pos_next_ecef observer_ecef)
            let time_diff := ((dt_next - dt : ℤ) : ℝ)
            if 0 < time_diff then (range_next - range_km) / time_diff else 0.0
          else 0.0
      let sat_altitude := norm3 sat_pos_ecef - EARTH_RADIUS_KM
      { time := dt, elevation := azel.2, azimuth := azel.1, range := range_km,
        rangeRate := range_rate, altitude := sat_altitude } ::
        _calculate_positions satellite jday observer_ecef rest observer_lat observer_lon

/-- The SGP4 error code reported at time step `dt`. -/
def errAt (satellite : SatRec) (jday : ℤ → ℚ × ℚ) (dt : ℤ) : ℤ :=
  (satellite.sgp4 (jday dt).1 (jday dt).2).1

/-- Whether propagation succeeds at time step `dt` (error code 0). -/
def okStep (satellite : SatRec) (jday : ℤ → ℚ × ℚ) (dt : ℤ) : Bool :=
  errAt satellite jday dt = 0

/-- The Earth-fixed satellite vector computed for time step `dt`. -/
noncomputable def ecefAt (satellite : SatRec) (jday : ℤ → ℚ × ℚ) (dt : ℤ) : Vec3 :=
  _teme_to_ecef (satellite.sgp4 (jday dt).1 (jday dt).2).2.1 (jday dt).1 (jday dt).2

/-- The observer-to-satellite range computed for time step `dt`. -/
noncomputable def rangeAt (satellite : SatRec) (jday : ℤ → ℚ × ℚ)
    (observer_ecef : Vec3) (dt : ℤ) : ℝ :=
  norm3 (vsub (ecefAt satellite jday dt) observer_ecef)

/-- A scripted propagator that always succeeds with a fixed TEME vector
(the deterministic stub of spec §9, used to instantiate witnesses). -/
noncomputable def satStub : SatRec :=
  ⟨fun _ _ => (0, ⟨7000, 0, 0⟩, ⟨0, 0, 0⟩)⟩

/-- A scripted propagator failing exactly at the step with time 60. -/
noncomputable def satStubFail : SatRec :=
  ⟨fun jd _ => (if jd = 60 then 6 else 0, ⟨7000, 0, 0⟩, ⟨0, 0, 0⟩)⟩

/-- A trivial stand-in for the `jday` conversion: the instant itself as the
day and a zero fraction. -/
def jdayStub (dt : ℤ) : ℚ × ℚ := ((dt : ℚ), 0)

end sgp4

/-! ## The Skyfield-based sample generator (python-skyfield/src/calculator.py)

The Skyfield library calls (`(satellite - observer).at(t).altaz()`,
`.distance().km` and `satellite.at(t).distance().km`) are the opaque external
collaborators here; they enter as one capability record.  The lookahead time
`ts.utc(..., second + 1)` is the instant one second later. -/

/-- The Skyfield library surface consumed by `_calculate_positions`:
topocentric altitude and azimuth in degrees, topocentric distance in km and
geocentric distance in km, each as a function of the UTC instant. -/
structure SkyLib where
  altDeg : ℤ → ℝ
  azDeg : ℤ → ℝ
  topoDistKm : ℤ → ℝ
  geoDistKm : ℤ → ℝ

namespace skyfield

/-- `_calculate_positions(satellite, observer, times)` of the Skyfield
variant: every time step yields a sample; the range rate is the topocentric
distance one second ahead minus the current one (a 1-second forward
difference, divided by the elapsed 1 s); the altitude subtracts the literal
mean Earth radius 6371.0. -/
noncomputable def _calculate_positions (lib : SkyLib) (times : List ℤ) : List Position :=
  times.map (fun dt =>
    let distance := lib.topoDistKm dt
    let distance_next := lib.topoDistKm (dt + 1)
    let range_rate := distance_next - distance
    let sat_altitude := lib.geoDistKm dt - 6371.0
    { time := dt, elevation := lib.altDeg dt, azimuth := lib.azDeg dt,
      range := distance, rangeRate := range_rate, altitude := sat_altitude })

/-- A scripted Skyfield library: topocentric distance 100 km at instant 0
and 105 km at every other instant, geocentric distance 7000 km. -/
noncomputable def libStub : SkyLib :=
  { altDeg := fun _ => 45
    azDeg := fun _ => 0
    topoDistKm := fun t => if t = 0 then 100 else 105
    geoDistKm := fun _ => 7000 }

end skyfield

/-! ## Basic lemmas about the rounding model -/

/-- Python's `round` is the identity on whole numbers. -/
theorem pyRound_intCast (n : ℤ) : pyRound (n : ℚ) 0 = n := by
  simp [pyRound, rnte]

/-- Unfolding of the loop body over a cons cell. -/
theorem segFold_cons (min_elevation : ℚ) (st : SegState) (p : Sample) (l : List Sample) :
    segFold min_elevation st (p :: l) = segFold min_elevation (segStep min_elevation st p) l := rfl

/-- Windows already emitted survive one more loop iteration. -/
theorem mem_windows_segStep {w : Window} (min_elevation : ℚ) (st : SegState) (p : Sample)
    (hw : w ∈ st.windows) : w ∈ (segStep min_elevation st p).windows := by
  by_cases h1 : min_elevation ≤ p.elevation
  · by_cases h2 : st.in_window
    · by_cases h3 : st.window_max_elevation < p.elevation
      · simp [segStep, h1, h2, h3, hw]
      · simp [segStep, h1, h2, h3, hw]
    · by_cases h3 : p.elevation < p.elevation
      · simp [segStep, h1, h2, h3, hw]
      · simp [segStep, h1, h2, h3, hw]
  · by_cases h2 : st.in_window
    · simp [segStep, h1, h2, List.mem_append, hw]
    · simp [segStep, h1, h2, hw]

/-- Windows already emitted survive the rest of the scan. -/
theorem mem_windows_segFold {w : Window} (min_elevation : ℚ) (st : SegState)
    (l : List Sample) (hw : w ∈ st.windows) :
    w ∈ (segFold min_elevation st l).windows := by
  induction l generalizing st with
  | nil => exact hw
  | cons p l ih => exact ih _ (mem_windows_segStep min_elevation st p hw)

/-- Windows already emitted appear in the final output. -/
theorem mem_finalizeState {w : Window} (st : SegState) (hw : w ∈ st.windows) :
    w ∈ finalizeState st := by
  unfold finalizeState
  split
  · exact List.mem_append_left _ hw
  · exact hw

/-! ## Claim C1: the concrete scenario -/

set_option maxHeartbeats 1000000 in
/-- C1: on the sample sequence with elevations [5, 12, 20, 15, 8, 3, 11, 9]
at 60-second steps from 2024-01-01T00:00:00Z (Unix 1704067200) and
minElevation = 10, the segmenter emits exactly two windows: the first from
00:01:00Z (1704067260) to 00:03:00Z (1704067380) with maxElevation 20
attained at 00:02:00Z (1704067320), duration 120 s and the three points with
elevations 12, 20, 15; the second with start = end = 00:06:00Z (1704067560),
maxElevation 11, duration 0 and a single point. -/
theorem c1_concrete_scenario :
    _find_visibility_windows scenarioSamples [] 10 =
      [{ start := 1704067260, endTime := 1704067380, maxElevation := 20,
         maxElevationTime := 1704067320, duration := 120,
         points := [⟨1704067260, 0, 12, 0, 0, 0⟩, ⟨1704067320, 0, 20, 0, 0, 0⟩,
                    ⟨1704067380, 0, 15, 0, 0, 0⟩] },
       { start := 1704067560, endTime := 1704067560, maxElevation := 11,
         maxElevationTime := 1704067560, duration := 0,
         points := [⟨1704067560, 0, 11, 0, 0, 0⟩] }] := by
  norm_num [_find_visibility_windows, scenarioSamples, minuteSample, segFold, segStep,
    finalizeState, initState, closeWindow, roundPoint, pyRound, rnte]

/-! ## Claim C10: the segmenter ignores its `times` argument -/

/-- C10: `_find_visibility_windows` does not depend on its `times` argument:
for every positions list and threshold, any two values of `times` give
identical output (the parameter is accepted and never read). -/
theorem c10_times_independent (positions : List Sample) (times1 times2 : List ℤ)
    (min_elevation : ℚ) :
    _find_visibility_windows positions times1 min_elevation =
      _find_visibility_windows positions times2 min_elevation := rfl

/-! ## Claim C2: window closure at the last in-threshold sample -/

/-- Processing an in-threshold sample leaves the scanner inside a window,
records the sample's time as the previous time, and appends the sample's
rounded record to the open window's point list. -/
theorem segStep_inside (min_elevation : ℚ) (st : SegState) (p : Sample)
    (hp : min_elevation ≤ p.elevation) :
    (segStep min_elevation st p).in_window = true ∧
    (segStep min_elevation st p).prev_time = p.time ∧
    roundPoint p ∈ (segStep min_elevation st p).window_positions ∧
    (segStep min_elevation st p).windows = st.windows := by
  by_cases h2 : st.in_window
  · by_cases h3 : st.window_max_elevation < p.elevation
    · simp [segStep, hp, h2, h3]
    · simp [segStep, hp, h2, h3]
  · by_cases h3 : p.elevation < p.elevation
    · simp [segStep, hp, h2, h3]
    · simp [segStep, hp, h2, h3]

/-- Processing an out-of-threshold sample while inside a window closes the
window with the previous sample's time as its end. -/
theorem segStep_closes (min_elevation : ℚ) (st : SegState) (q : Sample)
    (hq : ¬ min_elevation ≤ q.elevation) (hin : st.in_window = true) :
    (segStep min_elevation st q).windows =
      st.windows ++ [closeWindow st st.prev_time] := by
  simp [segStep, hq, hin]

/-- Generalized closure property: from any scanner state, scanning
`l₁ ++ p :: q :: l₂` where `p` is in threshold and `q` is not produces a
window that ends at `p`'s time, contains `p`'s rounded record, and whose
duration is end minus start in whole seconds. -/
theorem segFold_closure (min_elevation : ℚ) (p q : Sample)
    (hp : min_elevation ≤ p.elevation) (hq : q.elevation < min_elevation) :
    ∀ (l₁ : List Sample) (st : SegState) (l₂ : List Sample),
    ∃ w ∈ finalizeState (segFold min_elevation st (l₁ ++ p :: q :: l₂)),
      w.endTime = p.time ∧ roundPoint p ∈ w.points ∧
      w.duration = ((w.endTime - w.start : ℤ) : ℚ) := by
  intro l₁
  induction l₁ with
  | nil =>
    intro st l₂
    obtain ⟨hin, hprev, hmem, -⟩ := segStep_inside min_elevation st p hp
    have hq2 : ¬ min_elevation ≤ q.elevation := not_le.mpr hq
    have hwin := segStep_closes min_elevation (segStep min_elevation st p) q hq2 hin
    refine ⟨closeWindow (segStep min_elevation st p)
      (segStep min_elevation st p).prev_time, ?_, ?_, ?_, ?_⟩
    · rw [List.nil_append, segFold_cons, segFold_cons]
      apply mem_finalizeState
      apply mem_windows_segFold
      rw [hwin]
      exact List.mem_append_right _ (List.mem_singleton.mpr rfl)
    · simp [closeWindow, hprev]
    · simpa [closeWindow] using hmem
    · simp only [closeWindow]
      exact pyRound_intCast _
  | cons a l₁ ih =>
    intro st l₂
    rw [List.cons_append, segFold_cons]
    exact ih (segStep min_elevation st a) l₂

/-- C2: whenever `samples[i]` is in threshold and `samples[i+1]` is not
(written here as the list decomposition `l₁ ++ p :: q :: l₂` with `p` at
index `i`), the emitted window containing sample `p`'s point has its end
equal to `p`'s timestamp (never `q`'s), and its duration equals end minus
start in whole seconds. -/
theorem c2_window_closure (l₁ : List Sample) (p q : Sample) (l₂ : List Sample)
    (times : List ℤ) (min_elevation : ℚ)
    (hp : min_elevation ≤ p.elevation) (hq : q.elevation < min_elevation) :
    ∃ w ∈ _find_visibility_windows (l₁ ++ p :: q :: l₂) times min_elevation,
      w.endTime = p.time ∧ roundPoint p ∈ w.points ∧
      w.duration = ((w.endTime - w.start : ℤ) : ℚ) :=
  segFold_closure min_elevation p q hp hq l₁ initState l₂

/-- Witness for C2 at the concrete scenario: index 3 (elevation 15) is in
threshold and index 4 (elevation 8) is not, so a window ends at
2024-01-01T00:03:00Z containing the rounded index-3 record. -/
theorem c2_window_closure_witness :
    ∃ w ∈ _find_visibility_windows
        ([minuteSample 0 5, minuteSample 1 12, minuteSample 2 20] ++
          minuteSample 3 15 :: minuteSample 4 8 ::
          [minuteSample 5 3, minuteSample 6 11, minuteSample 7 9]) [] 10,
      w.endTime = (minuteSample 3 15).time ∧
      roundPoint (minuteSample 3 15) ∈ w.points ∧
      w.duration = ((w.endTime - w.start : ℤ) : ℚ) :=
  c2_window_closure _ _ _ _ [] 10 (by norm_num [minuteSample])
    (by norm_num [minuteSample])

/-! ## The run characterization of emitted windows (used by C3 and C9) -/

/-- `lastD` of a list extended by one element is that element. -/
theorem lastD_concat (d a : Sample) (l : List Sample) : lastD d (l ++ [a]) = a := by
  induction l generalizing d with
  | nil => rfl
  | cons b l ih => exact ih b

/-- The first component of the running peak is the maximum elevation. -/
theorem peakAccum_fst (l : List Sample) : ∀ e t, (peakAccum (e, t) l).1 = runMax e l := by
  induction l with
  | nil => intro e t; rfl
  | cons p l ih =>
    intro e t
    by_cases h : e < p.elevation
    · have : max e p.elevation = p.elevation := max_eq_right h.le
      simp only [peakAccum, List.foldl_cons, peakStep, h, if_true, runMax, this] at *
      exact ih p.elevation p.time
    · have : max e p.elevation = e := max_eq_left (not_lt.mp h)
      simp only [peakAccum, List.foldl_cons, peakStep, h, if_false, runMax, this] at *
      exact ih e t

/-- The second component of the running peak is the time of the first sample
strictly exceeding the seed, i.e. the first attainment of the maximum. -/
theorem peakAccum_spec (l : List Sample) : ∀ e t,
    ((peakAccum (e, t) l).2 = t ∧ runMax e l = e) ∨
    (∃ l₁ s l₂, l = l₁ ++ s :: l₂ ∧ s.elevation = runMax e l ∧
      s.time = (peakAccum (e, t) l).2 ∧ e < runMax e l ∧
      ∀ s2 ∈ l₁, s2.elevation < runMax e l) := by
  induction l with
  | nil => intro e t; exact Or.inl ⟨rfl, rfl⟩
  | cons p l ih =>
    intro e t
    by_cases h : e < p.elevation
    · have hmax : max e p.elevation = p.elevation := max_eq_right h.le
      have hstep : peakAccum (e, t) (p :: l) = peakAccum (p.elevation, p.time) l := by
        simp only [peakAccum, List.foldl_cons, peakStep, h, if_true]
      have hrunm : runMax e (p :: l) = runMax p.elevation l := by
        simp only [runMax, List.foldl_cons, hmax]
      rcases ih p.elevation p.time with ⟨h2, hm⟩ | ⟨l₁, s, l₂, heq, hsel, hstime, hlt, hall⟩
      · refine Or.inr ⟨[], p, l, rfl, ?_, ?_, ?_, ?_⟩
        · rw [hrunm, hm]
        · rw [hstep, h2]
        · rw [hrunm, hm]; exact h
        · intro s2 hs2; cases hs2
      · refine Or.inr ⟨p :: l₁, s, l₂, by rw [heq, List.cons_append], ?_, ?_, ?_, ?_⟩
        · rw [hrunm]; exact hsel
        · rw [hstep]; exact hstime
        · rw [hrunm]; exact h.trans hlt
        · intro s2 hs2
          rcases List.mem_cons.mp hs2 with rfl | hs2
          · rw [hrunm]; exact hlt
          · rw [hrunm]; exact hall s2 hs2
    · have hmax : max e p.elevation = e := max_eq_left (not_lt.mp h)
      have hstep : peakAccum (e, t) (p :: l) = peakAccum (e, t) l := by
        simp only [peakAccum, List.foldl_cons, peakStep, h, if_false]
      have hrunm : runMax e (p :: l) = runMax e l := by
        simp only [runMax, List.foldl_cons, hmax]
      rcases ih e t with ⟨h2, hm⟩ | ⟨l₁, s, l₂, heq, hsel, hstime, hlt, hall⟩
      · exact Or.inl ⟨by rw [hstep, h2], by rw [hrunm, hm]⟩
      · refine Or.inr ⟨p :: l₁, s, l₂, by rw [heq, List.cons_append], ?_, ?_, ?_, ?_⟩
        · rw [hrunm]; exact hsel
        · rw [hstep]; exact hstime
        · rw [hrunm]; exact hlt
        · intro s2 hs2
          rcases List.mem_cons.mp hs2 with rfl | hs2
          · rw [hrunm]; exact lt_of_le_of_lt (not_lt.mp h) hlt
          · rw [hrunm]; exact hall s2 hs2

/-- Closing a window whose accumulator corresponds to a run yields a good
window. -/
theorem closeWindow_good (samples : List Sample) (min_elevation : ℚ) (st : SegState)
    (h : OpenAcc samples min_elevation st) :
    GoodWindow samples min_elevation (closeWindow st st.prev_time) := by
  obtain ⟨s0, rest, hmem, hth, hpos, hstart, hprev, hpeak⟩ := h
  have hfst : st.window_max_elevation = runMax s0.elevation rest := by
    have := congrArg Prod.fst hpeak
    simpa [peakAccum_fst] using this
  have hsnd : st.window_max_elevation_time = (peakAccum (s0.elevation, s0.time) rest).2 := by
    simpa using congrArg Prod.snd hpeak
  refine ⟨s0, rest, hmem, hth, ?_, ?_, ?_, ?_, ?_, ?_⟩
  · simpa [closeWindow] using hpos
  · simpa [closeWindow] using hstart
  · simpa [closeWindow] using hprev
  · simp only [closeWindow]
    exact pyRound_intCast _
  · simp only [closeWindow, hfst]
  · simp only [closeWindow]
    rcases peakAccum_spec rest s0.elevation s0.time with ⟨h2, hm⟩ |
      ⟨l₁, s, l₂, heq, hsel, hstime, hlt, hall⟩
    · refine ⟨[], s0, rest, rfl, hm.symm, ?_, ?_⟩
      · rw [hsnd, h2]
      · intro s2 hs2; cases hs2
    · refine ⟨s0 :: l₁, s, l₂, by rw [heq, List.cons_append], hsel, ?_, ?_⟩
      · rw [hsnd, ← hstime]
      · intro s2 hs2
        rcases List.mem_cons.mp hs2 with rfl | hs2
        · exact hlt
        · exact hall s2 hs2

/-- One loop iteration preserves the segmenter invariant. -/
theorem segStep_SegInv (samples : List Sample) (min_elevation : ℚ) (st : SegState)
    (p : Sample) (hp : p ∈ samples) (h : SegInv samples min_elevation st) :
    SegInv samples min_elevation (segStep min_elevation st p) := by
  obtain ⟨hgood, hopen⟩ := h
  by_cases hcond : min_elevation ≤ p.elevation
  · have hw : (segStep min_elevation st p).windows = st.windows :=
      (segStep_inside min_elevation st p hcond).2.2.2
    refine ⟨?_, ?_⟩
    · intro w hww
      rw [hw] at hww
      exact hgood w hww
    · intro _
      by_cases hin : st.in_window
      · obtain ⟨s0, rest, hmem, hth, hpos, hstart, hprev, hpeak⟩ := hopen hin
        have haux : (segStep min_elevation st p).window_positions =
            st.window_positions ++ [roundPoint p] ∧
            (segStep min_elevation st p).window_start = st.window_start ∧
            (segStep min_elevation st p).prev_time = p.time := by
          by_cases h3 : st.window_max_elevation < p.elevation
          · simp [segStep, hcond, hin, h3]
          · simp [segStep, hcond, hin, h3]
        refine ⟨s0, rest ++ [p], ?_, ?_, ?_, ?_, ?_, ?_⟩
        · intro s hs
          rcases List.mem_cons.mp hs with rfl | hs
          · exact hmem s (List.mem_cons_self _ _)
          · rcases List.mem_append.mp hs with hs | hs
            · exact hmem s (List.mem_cons_of_mem _ hs)
            · rw [List.mem_singleton.mp hs]; exact hp
        · intro s hs
          rcases List.mem_cons.mp hs with rfl | hs
          · exact hth s (List.mem_cons_self _ _)
          · rcases List.mem_append.mp hs with hs | hs
            · exact hth s (List.mem_cons_of_mem _ hs)
            · rw [List.mem_singleton.mp hs]; exact hcond
        · rw [haux.1, hpos]
          simp
        · rw [haux.2.1, hstart]
        · rw [haux.2.2, lastD_concat]
        · have hconcat : peakAccum (s0.elevation, s0.time) (rest ++ [p]) =
              peakStep (peakAccum (s0.elevation, s0.time) rest) p := by
            simp only [peakAccum]
            exact List.foldl_concat _ _ _ _
          rw [hconcat, ← hpeak]
          by_cases h3 : st.window_max_elevation < p.elevation
          · simp [segStep, hcond, hin, h3, peakStep]
          · simp [segStep, hcond, hin, h3, peakStep]
      · refine ⟨p, [], ?_, ?_, ?_, ?_, ?_, ?_⟩
        · intro s hs
          rw [List.mem_singleton.mp hs]; exact hp
        · intro s hs
          rw [List.mem_singleton.mp hs]; exact hcond
        · simp [segStep, hcond, hin]
        · simp [segStep, hcond, hin]
        · simp [segStep, hcond, hin, lastD]
        · simp [segStep, hcond, hin, peakAccum]
  · by_cases hin : st.in_window
    · have hwin := segStep_closes min_elevation st p hcond hin
      refine ⟨?_, ?_⟩
      · intro w hww
        rw [hwin] at hww
        rcases List.mem_append.mp hww with hww | hww
        · exact hgood w hww
        · rw [List.mem_singleton.mp hww]
          exact closeWindow_good samples min_elevation st (hopen hin)
      · intro hin2
        exact absurd hin2 (by simp [segStep, hcond, hin])
    · refine ⟨?_, ?_⟩
      · intro w hww
        have heq : (segStep min_elevation st p).windows = st.windows := by
          simp [segStep, hcond, hin]
        rw [heq] at hww
        exact hgood w hww
      · intro hin2
        exact absurd hin2 (by simp [segStep, hcond, hin])

/-- The whole scan preserves the segmenter invariant. -/
theorem segFold_SegInv (samples : List Sample) (min_elevation : ℚ) :
    ∀ (l : List Sample) (st : SegState), (∀ p ∈ l, p ∈ samples) →
    SegInv samples min_elevation st →
    SegInv samples min_elevation (segFold min_elevation st l) := by
  intro l
  induction l with
  | nil => intro st _ h; exact h
  | cons p l ih =>
    intro st hl h
    rw [segFold_cons]
    exact ih _ (fun q hq => hl q (List.mem_cons_of_mem _ hq))
      (segStep_SegInv samples min_elevation st p (hl p (List.mem_cons_self _ _)) h)

/-- Every window emitted by `_find_visibility_windows` is a `GoodWindow`:
it arises from a nonempty run of in-threshold input samples, with the
rounded points, start/end times, whole-second duration, rounded maximum
elevation and first-maximum timestamp the specification describes. -/
theorem findWindows_sound (samples : List Sample) (times : List ℤ) (min_elevation : ℚ)
    (w : Window) (hw : w ∈ _find_visibility_windows samples times min_elevation) :
    GoodWindow samples min_elevation w := by
  have hinv : SegInv samples min_elevation (segFold min_elevation initState samples) :=
    segFold_SegInv samples min_elevation samples initState (fun p hp => hp)
      ⟨by intro w hww; simp [initState, segFold] at hww,
       by intro hh; simp [initState] at hh⟩
  unfold _find_visibility_windows finalizeState at hw
  by_cases hc : (segFold min_elevation initState samples).in_window = true ∧
      (segFold min_elevation initState samples).window_positions ≠ []
  · rw [if_pos hc] at hw
    rcases List.mem_append.mp hw with hw2 | hw2
    · exact hinv.1 w hw2
    · rw [List.mem_singleton.mp hw2]
      exact closeWindow_good samples min_elevation _ (hinv.2 hc.1)
  · rw [if_neg hc] at hw
    exact hinv.1 w hw

/-! ## Claim C3: window invariants (corrected) -/

/-- C3 counterexample: for the single sample with elevation 10.123 and
minElevation 10, the emitted window's maxElevation is the *rounded* value
10.12 = 253/25, not the window's sample's maximum elevation 10.123, so the
claim's "maxElevation equals the maximum elevation over the window's
samples" fails as stated. -/
theorem c3_counterexample :
    _find_visibility_windows [threeDigitSample] [] 10 =
      [{ start := 0, endTime := 0, maxElevation := 253/25, maxElevationTime := 0,
         duration := 0, points := [⟨0, 0, 253/25, 0, 0, 0⟩] }] ∧
    threeDigitSample.elevation = 10123/1000 ∧ (253/25 : ℚ) ≠ 10123/1000 := by
  refine ⟨?_, by norm_num [threeDigitSample], by norm_num⟩
  norm_num [_find_visibility_windows, threeDigitSample, segFold, segStep,
    finalizeState, initState, closeWindow, roundPoint, pyRound, rnte]

/-- C3 (amended): every emitted window comes from a run of input samples all
of whose (unrounded) elevations are at least minElevation; its maxElevation
is the maximum (unrounded) elevation over the run *rounded to 2 decimals*
(the amendment the counterexample forces); and its maxElevationTime is the
timestamp of the first sample attaining that maximum (ties keep the earlier
timestamp). -/
theorem c3_window_invariants (samples : List Sample) (times : List ℤ)
    (min_elevation : ℚ) (w : Window)
    (hw : w ∈ _find_visibility_windows samples times min_elevation) :
    GoodWindow samples min_elevation w :=
  findWindows_sound samples times min_elevation w hw

/-- Witness for C3 at a concrete input. -/
theorem c3_window_invariants_witness :
    GoodWindow [threeDigitSample] 10
      { start := 0, endTime := 0, maxElevation := 253/25, maxElevationTime := 0,
        duration := 0, points := [⟨0, 0, 253/25, 0, 0, 0⟩] } :=
  c3_window_invariants [threeDigitSample] [] 10 _
    (by norm_num [_find_visibility_windows, threeDigitSample, segFold, segStep,
      finalizeState, initState, closeWindow, roundPoint, pyRound, rnte])

/-! ## Claim C9: the rounding contract (corrected) -/

/-- `rnte` returns a nearest integer, and on an exact half-way tie it
returns the even one: the characterization of round-half-to-even. -/
theorem rnte_spec (q : ℚ) :
    |(rnte q : ℚ) - q| ≤ 1 / 2 ∧ (|(rnte q : ℚ) - q| = 1 / 2 → rnte q % 2 = 0) := by
  have h1 : (⌊q⌋ : ℚ) ≤ q := Int.floor_le q
  have h2 : q < ⌊q⌋ + 1 := Int.lt_floor_add_one q
  unfold rnte
  by_cases hc1 : q - ⌊q⌋ < 1 / 2
  · rw [if_pos hc1]
    have habs : |(⌊q⌋ : ℚ) - q| = q - ⌊q⌋ := by
      rw [abs_sub_comm, abs_of_nonneg (by linarith)]
    refine ⟨by rw [habs]; linarith, ?_⟩
    intro he
    rw [habs] at he
    linarith
  · rw [if_neg hc1]
    by_cases hc2 : 1 / 2 < q - ⌊q⌋
    · rw [if_pos hc2]
      have habs : |((⌊q⌋ + 1 : ℤ) : ℚ) - q| = (⌊q⌋ : ℚ) + 1 - q := by
        push_cast
        rw [abs_of_nonneg (by linarith)]
      refine ⟨by rw [habs]; linarith, ?_⟩
      intro he
      rw [habs] at he
      linarith
    · rw [if_neg hc2]
      have htie : q - ⌊q⌋ = 1 / 2 := le_antisymm (not_lt.mp hc2) (not_lt.mp hc1)
      by_cases hc3 : ⌊q⌋ % 2 = 0
      · rw [if_pos hc3]
        have habs : |(⌊q⌋ : ℚ) - q| = 1 / 2 := by
          rw [abs_sub_comm, abs_of_nonneg (by linarith)]
          linarith
        exact ⟨le_of_eq habs, fun _ => hc3⟩
      · rw [if_neg hc3]
        have habs : |((⌊q⌋ + 1 : ℤ) : ℚ) - q| = 1 / 2 := by
          push_cast
          rw [abs_of_nonneg (by linarith)]
          linarith
        refine ⟨le_of_eq habs, fun _ => ?_⟩
        omega

/-- C9 counterexample: all fields of the input sample hold the exactly
representable value 0.125.  The emitted point carries 0.12 = 3/25 in the
2-decimal fields (Python's round-half-to-even), while the spec's
round-half-away-from-zero mandates 0.13 at this boundary; so the claim's
rounding rule fails as stated.  (The 3-decimal rangeRate keeps 0.125.) -/
theorem c9_counterexample :
    _find_visibility_windows [tieSample] [] 0 =
      [{ start := 0, endTime := 0, maxElevation := 3/25, maxElevationTime := 0,
         duration := 0,
         points := [⟨0, 3/25, 3/25, 3/25, 1/8, 3/25⟩] }] ∧
    specRound (125/1000) 2 = 13/100 ∧ (3/25 : ℚ) ≠ 13/100 := by
  refine ⟨?_, by norm_num [specRound, rhafz], by norm_num⟩
  norm_num [_find_visibility_windows, tieSample, segFold, segStep, finalizeState,
    initState, closeWindow, roundPoint, pyRound, rnte]

/-- C9 (amended): every emitted point is some input sample's fields rounded
via `roundPoint` — azimuth, elevation, range and altitude to 2 decimal
places and rangeRate to 3 — where the rounding (`pyRound`/`rnte`) is
round-half-to-even, Python's `round`: the second conjunct states that `rnte`
picks a nearest integer and resolves exact ties to the even one (not away
from zero, the amendment the counterexample forces). -/
theorem c9_rounding :
    (∀ (samples : List Sample) (times : List ℤ) (min_elevation : ℚ) (w : Window)
      (pt : Point), w ∈ _find_visibility_windows samples times min_elevation →
      pt ∈ w.points → ∃ s ∈ samples, pt = roundPoint s) ∧
    (∀ q : ℚ, |(rnte q : ℚ) - q| ≤ 1 / 2 ∧
      (|(rnte q : ℚ) - q| = 1 / 2 → rnte q % 2 = 0)) := by
  constructor
  · intro samples times min_elevation w pt hw hpt
    obtain ⟨s0, rest, hmem, -, hpts, -⟩ :=
      findWindows_sound samples times min_elevation w hw
    rw [hpts] at hpt
    obtain ⟨s, hs, hspt⟩ := List.mem_map.mp hpt
    exact ⟨s, hmem s hs, hspt.symm⟩
  · exact rnte_spec

/-- Witness for C9 at a concrete input: the point emitted for `tieSample`
and `rnte` at the exact tie 12.5. -/
theorem c9_rounding_witness :
    (∃ s ∈ [tieSample], (⟨0, 3/25, 3/25, 3/25, 1/8, 3/25⟩ : Point) = roundPoint s) ∧
    (|(rnte (25/2) : ℚ) - 25/2| ≤ 1 / 2 ∧
      (|(rnte (25/2) : ℚ) - 25/2| = 1 / 2 → rnte (25/2) % 2 = 0)) :=
  ⟨c9_rounding.1 [tieSample] [] 0
      { start := 0, endTime := 0, maxElevation := 3/25, maxElevationTime := 0,
        duration := 0, points := [⟨0, 3/25, 3/25, 3/25, 1/8, 3/25⟩] } _
      (by norm_num [_find_visibility_windows, tieSample, segFold, segStep,
        finalizeState, initState, closeWindow, roundPoint, pyRound, rnte])
      (List.mem_singleton.mpr rfl),
   c9_rounding.2 (25/2)⟩

/-! ## Claim C4: failed propagation steps are skipped -/

/-- C4: the samples emitted by the sgp4 `_calculate_positions` are exactly
the time steps at which the propagator reports error code 0, in order: a
failing step contributes no sample (it is neither retried nor fatal — the
function is total and continues with the remaining steps), so the segmenter
receives the remaining samples as if the failed step never existed. -/
theorem c4_skip_failed_steps (satellite : sgp4.SatRec) (jday : ℤ → ℚ × ℚ)
    (observer_ecef : Vec3) (times : List ℤ) (observer_lat observer_lon : ℝ) :
    (sgp4._calculate_positions satellite jday observer_ecef times
        observer_lat observer_lon).map Position.time =
      times.filter (sgp4.okStep satellite jday) := by
  induction times with
  | nil => rfl
  | cons dt rest ih =>
    by_cases h : (satellite.sgp4 (jday dt).1 (jday dt).2).1 = 0
    · simp [sgp4._calculate_positions, sgp4.okStep, sgp4.errAt, h, ih]
    · simp [sgp4._calculate_positions, sgp4.okStep, sgp4.errAt, h, ih]

/-! ## Claims C5 and C8: range rate and altitude of emitted samples -/

/-- Scanning one more leading time step prepends at most one sample. -/
theorem calc_cons (satellite : sgp4.SatRec) (jday : ℤ → ℚ × ℚ) (observer_ecef : Vec3)
    (observer_lat observer_lon : ℝ) (a : ℤ) (m : List ℤ) :
    ∃ pre, sgp4._calculate_positions satellite jday observer_ecef (a :: m)
        observer_lat observer_lon =
      pre ++ sgp4._calculate_positions satellite jday observer_ecef m
        observer_lat observer_lon := by
  simp only [sgp4._calculate_positions]
  split
  · exact ⟨[], rfl⟩
  · exact ⟨[_], rfl⟩

/-- The output on `l₁ ++ l` ends with the output on `l`. -/
theorem calc_suffix (satellite : sgp4.SatRec) (jday : ℤ → ℚ × ℚ) (observer_ecef : Vec3)
    (observer_lat observer_lon : ℝ) :
    ∀ (l₁ l : List ℤ),
    ∃ pre, sgp4._calculate_positions satellite jday observer_ecef (l₁ ++ l)
        observer_lat observer_lon =
      pre ++ sgp4._calculate_positions satellite jday observer_ecef l
        observer_lat observer_lon := by
  intro l₁
  induction l₁ with
  | nil => exact fun l => ⟨[], rfl⟩
  | cons a l₁ ih =>
    intro l
    obtain ⟨pre, hpre⟩ := ih l
    obtain ⟨pre0, hpre0⟩ :=
      calc_cons satellite jday observer_ecef observer_lat observer_lon a (l₁ ++ l)
    exact ⟨pre0 ++ pre, by rw [List.cons_append, hpre0, hpre, List.append_assoc]⟩

/-- Explicit description of the sample emitted for a successful leading time
step: the range is the current norm, the range rate the forward difference
to the next grid time (0 at the end of the grid or on lookahead failure),
and the altitude the Earth-fixed norm minus the equatorial radius. -/
theorem calc_head (satellite : sgp4.SatRec) (jday : ℤ → ℚ × ℚ) (observer_ecef : Vec3)
    (observer_lat observer_lon : ℝ) (dt : ℤ) (l₂ : List ℤ)
    (herr : sgp4.errAt satellite jday dt = 0) :
    sgp4._calculate_positions satellite jday observer_ecef (dt :: l₂)
        observer_lat observer_lon =
      { time := dt
        elevation := (sgp4._ecef_to_azel (vsub (sgp4.ecefAt satellite jday dt)
          observer_ecef) observer_lat observer_lon).2
        azimuth := (sgp4._ecef_to_azel (vsub (sgp4.ecefAt satellite jday dt)
          observer_ecef) observer_lat observer_lon).1
        range := sgp4.rangeAt satellite jday observer_ecef dt
        rangeRate :=
          match l₂ with
          | [] => 0.0
          | dt2 :: _ =>
            if sgp4.errAt satellite jday dt2 = 0 then
              (if 0 < ((dt2 - dt : ℤ) : ℝ) then
                (sgp4.rangeAt satellite jday observer_ecef dt2 -
                  sgp4.rangeAt satellite jday observer_ecef dt) / ((dt2 - dt : ℤ) : ℝ)
               else 0.0)
            else 0.0
        altitude := norm3 (sgp4.ecefAt satellite jday dt) - sgp4.EARTH_RADIUS_KM } ::
      sgp4._calculate_positions satellite jday observer_ecef l₂
        observer_lat observer_lon := by
  have h2 : ¬ ((satellite.sgp4 (jday dt).1 (jday dt).2).1 ≠ 0) := by
    simp only [sgp4.errAt] at herr
    simp [herr]
  simp only [sgp4._calculate_positions]
  rw [if_neg h2]
  rfl

/-- C5 counterexample: in the Skyfield implementation the last (indeed only)
sample of the grid [0] gets range_rate = topoDist(1 s later) − topoDist(now)
= 105 − 100 = 5 ≠ 0: the claim that the last sample's range_rate is reported
as 0 fails there, because that variant always looks ahead a fixed 1 second
and has no last-sample special case. -/
theorem c5_counterexample :
    (skyfield._calculate_positions skyfield.libStub [0]).map Position.rangeRate = [5] ∧
    (5 : ℝ) ≠ 0 := by
  constructor
  · norm_num [skyfield._calculate_positions, skyfield.libStub]
  · norm_num

/-- C5 (amended): in the sgp4 implementation (grid-step lookahead), for every
successfully propagated step `dt` the emitted sample has range_rate 0 when
`dt` is the last grid step, 0 when the lookahead propagation fails, and
(lookahead range − current range) / elapsed seconds otherwise (for an
increasing grid).  In the Skyfield implementation (fixed 1-second lookahead)
every sample — the last one included, which is what the counterexample
forces to be amended — has range_rate equal to the topocentric distance one
second ahead minus the current one. -/
theorem c5_range_rate :
    (∀ (satellite : sgp4.SatRec) (jday : ℤ → ℚ × ℚ) (observer_ecef : Vec3)
      (observer_lat observer_lon : ℝ) (l₁ : List ℤ) (dt : ℤ) (l₂ : List ℤ),
      sgp4.errAt satellite jday dt = 0 →
      ∃ p ∈ sgp4._calculate_positions satellite jday observer_ecef (l₁ ++ dt :: l₂)
          observer_lat observer_lon,
        p.time = dt ∧
        (l₂ = [] → p.rangeRate = 0) ∧
        (∀ dt2 l₂2, l₂ = dt2 :: l₂2 → sgp4.errAt satellite jday dt2 ≠ 0 →
          p.rangeRate = 0) ∧
        (∀ dt2 l₂2, l₂ = dt2 :: l₂2 → sgp4.errAt satellite jday dt2 = 0 → dt < dt2 →
          p.rangeRate = (sgp4.rangeAt satellite jday observer_ecef dt2 -
            sgp4.rangeAt satellite jday observer_ecef dt) / ((dt2 - dt : ℤ) : ℝ))) ∧
    (∀ (lib : SkyLib) (times : List ℤ) (p : Position),
      p ∈ skyfield._calculate_positions lib times →
      p.rangeRate = lib.topoDistKm (p.time + 1) - lib.topoDistKm p.time) := by
  constructor
  · intro satellite jday observer_ecef observer_lat observer_lon l₁ dt l₂ herr
    obtain ⟨pre, hpre⟩ :=
      calc_suffix satellite jday observer_ecef observer_lat observer_lon l₁ (dt :: l₂)
    rw [hpre, calc_head satellite jday observer_ecef observer_lat observer_lon dt l₂ herr]
    refine ⟨_, List.mem_append_right _ (List.mem_cons_self _ _), rfl, ?_, ?_, ?_⟩
    · rintro rfl
      norm_num
    · rintro dt2 l₂2 rfl herr2
      norm_num [herr2]
    · rintro dt2 l₂2 rfl herr2 hlt
      have hpos : (0 : ℝ) < ((dt2 - dt : ℤ) : ℝ) := by
        rw [Int.cast_pos]
        omega
      norm_num [herr2, hpos]
      intro hle2
      exact absurd hle2 (not_le.mpr hlt)
  · intro lib times p hp
    obtain ⟨dt, hdt, rfl⟩ := List.mem_map.mp hp
    rfl

/-- Witness for C5's sgp4 part at a scripted propagator and the grid
[0, 60]. -/
theorem c5_range_rate_witness :
    ∃ p ∈ sgp4._calculate_positions sgp4.satStub sgp4.jdayStub ⟨0, 0, 0⟩
        ([] ++ 0 :: [60]) 0 0,
      p.time = 0 ∧
      ([60] = ([] : List ℤ) → p.rangeRate = 0) ∧
      (∀ dt2 l₂2, [60] = dt2 :: l₂2 → sgp4.errAt sgp4.satStub sgp4.jdayStub dt2 ≠ 0 →
        p.rangeRate = 0) ∧
      (∀ dt2 l₂2, [60] = dt2 :: l₂2 → sgp4.errAt sgp4.satStub sgp4.jdayStub dt2 = 0 →
        0 < dt2 → p.rangeRate = (sgp4.rangeAt sgp4.satStub sgp4.jdayStub ⟨0, 0, 0⟩ dt2 -
          sgp4.rangeAt sgp4.satStub sgp4.jdayStub ⟨0, 0, 0⟩ 0) / ((dt2 - 0 : ℤ) : ℝ)) :=
  c5_range_rate.1 sgp4.satStub sgp4.jdayStub ⟨0, 0, 0⟩ 0 0 [] 0 [60] rfl

/-- C8 counterexample: with geocentric distance 7000 km the Skyfield
implementation reports altitude 7000 − 6371.0 = 629, not
7000 − 6378.137 = 621.863: the claim that every sample's altitude subtracts
the WGS84 equatorial radius 6378.137 fails for that implementation, which
subtracts the mean radius 6371.0. -/
theorem c8_counterexample :
    (skyfield._calculate_positions skyfield.libStub [0]).map Position.altitude = [629] ∧
    (629 : ℝ) ≠ 7000 - 6378.137 := by
  constructor
  · norm_num [skyfield._calculate_positions, skyfield.libStub]
  · norm_num

/-- C8 (amended): in the sgp4 implementation every successfully propagated
sample's altitude is the Euclidean norm of the Earth-fixed satellite vector
minus `EARTH_RADIUS_KM` = 6378.137, the same constant `_geodetic_to_ecef`
uses; in the Skyfield implementation (the amendment the counterexample
forces) the altitude is the library's geocentric distance minus the literal
mean radius 6371.0. -/
theorem c8_altitude :
    (∀ (satellite : sgp4.SatRec) (jday : ℤ → ℚ × ℚ) (observer_ecef : Vec3)
      (observer_lat observer_lon : ℝ) (l₁ : List ℤ) (dt : ℤ) (l₂ : List ℤ),
      sgp4.errAt satellite jday dt = 0 →
      ∃ p ∈ sgp4._calculate_positions satellite jday observer_ecef (l₁ ++ dt :: l₂)
          observer_lat observer_lon,
        p.time = dt ∧
        p.altitude = norm3 (sgp4.ecefAt satellite jday dt) - sgp4.EARTH_RADIUS_KM ∧
        sgp4.EARTH_RADIUS_KM = 6378.137) ∧
    (∀ (lib : SkyLib) (times : List ℤ) (p : Position),
      p ∈ skyfield._calculate_positions lib times →
      p.altitude = lib.geoDistKm p.time - 6371.0) := by
  constructor
  · intro satellite jday observer_ecef observer_lat observer_lon l₁ dt l₂ herr
    obtain ⟨pre, hpre⟩ :=
      calc_suffix satellite jday observer_ecef observer_lat observer_lon l₁ (dt :: l₂)
    rw [hpre, calc_head satellite jday observer_ecef observer_lat observer_lon dt l₂ herr]
    exact ⟨_, List.mem_append_right _ (List.mem_cons_self _ _), rfl, rfl, rfl⟩
  · intro lib times p hp
    obtain ⟨dt, hdt, rfl⟩ := List.mem_map.mp hp
    rfl

/-- Witness for C8's sgp4 part at a scripted propagator and the grid [0]. -/
theorem c8_altitude_witness :
    ∃ p ∈ sgp4._calculate_positions sgp4.satStub sgp4.jdayStub ⟨0, 0, 0⟩
        ([] ++ 0 :: []) 0 0,
      p.time = 0 ∧
      p.altitude = norm3 (sgp4.ecefAt sgp4.satStub sgp4.jdayStub 0) -
        sgp4.EARTH_RADIUS_KM ∧
      sgp4.EARTH_RADIUS_KM = 6378.137 :=
  c8_altitude.1 sgp4.satStub sgp4.jdayStub ⟨0, 0, 0⟩ 0 0 [] 0 [] rfl

/-! ## Claim C6: the time grid -/

/-- Closed form of the `_generate_times` loop: for `start ≤ endT` the grid is
the arithmetic progression `start + step * i` for `i = 0, ...,
(endT - start) / step`. -/
theorem generate_times_closed_form (endT step_seconds : ℤ) (h : 0 < step_seconds) :
    ∀ (n : ℕ) (start : ℤ), (endT + step_seconds - start).toNat = n → start ≤ endT →
    _generate_times start endT step_seconds h =
      (List.range (((endT - start) / step_seconds).toNat + 1)).map
        (fun i : ℕ => start + step_seconds * (i : ℤ)) := by
  intro n
  induction n using Nat.strong_induction_on with
  | _ n ih =>
    intro start hn hle
    rw [_generate_times, dif_pos hle]
    by_cases h2 : start + step_seconds ≤ endT
    · have hrec := ih ((endT + step_seconds - (start + step_seconds)).toNat)
        (by omega) (start + step_seconds) rfl h2
      rw [hrec]
      have hdiv : (endT - start) / step_seconds =
          (endT - (start + step_seconds)) / step_seconds + 1 := by
        have harg : endT - start = (endT - (start + step_seconds)) + 1 * step_seconds := by
          ring
        rw [harg, Int.add_mul_ediv_right _ _ (by omega : step_seconds ≠ 0)]
      have hge : 0 ≤ (endT - (start + step_seconds)) / step_seconds :=
        Int.ediv_nonneg (by omega) (by omega)
      have htn : ((endT - start) / step_seconds).toNat =
          ((endT - (start + step_seconds)) / step_seconds).toNat + 1 := by
        rw [hdiv]
        omega
      rw [htn]
      conv_rhs => rw [List.range_succ_eq_map]
      simp only [List.map_cons, Nat.cast_zero, mul_zero, add_zero, List.map_map]
      refine congrArg (List.cons start) ?_
      apply List.map_congr_left
      intro i _
      simp only [Function.comp_apply, Nat.succ_eq_add_one]
      push_cast
      ring
    · rw [_generate_times, dif_neg h2]
      have hdz : (endT - start) / step_seconds = 0 :=
        Int.ediv_eq_zero_of_lt (by omega) (by omega)
      rw [hdz]
      simp [List.range_succ]

/-- C6: for `startTime ≤ endTime` and positive step, the generated grid is
`t₀ = start, tᵢ₊₁ = tᵢ + step` truncated at the largest `tᵢ ≤ endTime`
(closed form `start + step * i`, `i ≤ (end − start) / step`): every grid
time is at most `endTime`, the next time after the last is strictly greater,
and `start = end` yields the one-element grid `[start]`. -/
theorem c6_time_grid (start endT step_seconds : ℤ) (h : 0 < step_seconds)
    (hle : start ≤ endT) :
    _generate_times start endT step_seconds h =
      (List.range (((endT - start) / step_seconds).toNat + 1)).map
        (fun i : ℕ => start + step_seconds * (i : ℤ)) ∧
    (start = endT → _generate_times start endT step_seconds h = [start]) ∧
    (∀ t ∈ _generate_times start endT step_seconds h, t ≤ endT) ∧
    endT < start + step_seconds * ((endT - start) / step_seconds + 1) := by
  have hcf := generate_times_closed_form endT step_seconds h
    ((endT + step_seconds - start).toNat) start rfl hle
  refine ⟨hcf, ?_, ?_, ?_⟩
  · intro heq
    subst heq
    rw [hcf]
    simp [List.range_succ]
  · intro t ht
    rw [hcf] at ht
    obtain ⟨i, hi, rfl⟩ := List.mem_map.mp ht
    rw [List.mem_range] at hi
    have hik : (i : ℤ) ≤ (endT - start) / step_seconds := by
      have hge : 0 ≤ (endT - start) / step_seconds := Int.ediv_nonneg (by omega) (by omega)
      omega
    have hmul : step_seconds * (i : ℤ) ≤ step_seconds * ((endT - start) / step_seconds) :=
      mul_le_mul_of_nonneg_left hik (by omega)
    have hstep : (endT - start) / step_seconds * step_seconds ≤ endT - start :=
      Int.ediv_mul_le _ (by omega)
    have : step_seconds * ((endT - start) / step_seconds) ≤ endT - start := by
      rw [mul_comm]
      exact hstep
    omega
  · have := Int.lt_ediv_add_one_mul_self (endT - start) h
    have hcomm : ((endT - start) / step_seconds + 1) * step_seconds =
        step_seconds * ((endT - start) / step_seconds + 1) := mul_comm _ _
    omega

/-- Witness for C6: start 0, end 150, step 60 give the grid [0, 60, 120]
(= 0 + 60·i for i = 0, 1, 2 with (150 − 0)/60 = 2), whose times stay ≤ 150
while the next time 180 exceeds it. -/
theorem c6_time_grid_witness :
    _generate_times 0 150 60 (by norm_num) =
      (List.range (((150 - 0 : ℤ) / 60).toNat + 1)).map
        (fun i : ℕ => 0 + 60 * (i : ℤ)) ∧
    ((0 : ℤ) = 150 → _generate_times 0 150 60 (by norm_num) = [0]) ∧
    (∀ t ∈ _generate_times 0 150 60 (by norm_num), t ≤ 150) ∧
    (150 : ℤ) < 0 + 60 * ((150 - 0) / 60 + 1) :=
  c6_time_grid 0 150 60 (by norm_num) (by norm_num)

/-! ## Claim C7: the GMST formula -/

/-- C7 counterexample: at jd = 2451545, fr = 1/2 the code's GMST seconds
value (fractional-day coefficient 1.00273790935, calculator.py line 126)
differs from the claim's formula with coefficient 1.0027379093 — by exactly
86400 · 5e-11 / 2 = 27/12500000 s — so the claim's "with these literal
coefficients" fails as stated. -/
theorem c7_counterexample :
    sgp4.gmstSeconds 2451545 (1/2) ≠ sgp4.gmstSecondsSpec 2451545 (1/2) := by
  norm_num [sgp4.gmstSeconds, sgp4.gmstSecondsSpec]

/-- The code's GMST seconds value equals the spec-shaped polynomial with the
corrected fractional-day coefficient 1.00273790935. -/
theorem gmst_seconds_amended_eq (jd fr : ℚ) :
    sgp4.gmstSeconds jd fr = sgp4.gmstSecondsAmended jd fr := by
  have key : ∀ c d x y : ℚ, c = d → x = y →
      x - c * ⌊x / c⌋ = y - d * ⌊y / d⌋ := by
    rintro c d x y rfl rfl
    rfl
  simp only [sgp4.gmstSeconds, sgp4.gmstSecondsAmended]
  exact key _ _ _ _ (by norm_num) (by ring)

/-- C7 (amended): for every Julian day `jd` and day fraction `fr`, the
sidereal angle is `(24110.54841 + 8640184.812866·T + 0.093104·T² − 6.2e-6·T³
+ 86400·1.00273790935·fr) mod 86400` seconds — the fractional-day
coefficient is the code's 1.00273790935, the one amendment the
counterexample forces — with `T = (jd − 2451545.0 + fr)/36525`, converted to
radians at 2π/86400 rad per second. -/
theorem c7_gmst_formula (jd fr : ℚ) :
    sgp4.gmstSeconds jd fr = sgp4.gmstSecondsAmended jd fr ∧
    sgp4._gmst jd fr = (sgp4.gmstSecondsAmended jd fr : ℝ) * (2 * Real.pi / 86400) := by
  refine ⟨gmst_seconds_amended_eq jd fr, ?_⟩
  simp only [sgp4._gmst, gmst_seconds_amended_eq jd fr]
  norm_num
